import Mathlib

/-!
# Bank-Management-System: a shallow embedding and its verified properties

Two programs live in the repository.

* `src/main.cpp`: an in-memory bank (`class BankAccount`, `class Bank`) whose balances are
  C++ `int`s.  It is embedded in the namespace `MainCpp`.
* `src/bank.c`: a flat file ledger that dumps its global array to `accounts.dat`.  It is
  embedded in the namespace `BankC`.

Conventions of the embedding:

* a C++ `int` is an `Int`; the two compound assignments `balance += amount` and
  `balance -= amount` store the 32-bit two's-complement result (`wrapInt`);
* every line the program prints is a constructor of `Output`;
* `std::map<int, BankAccount>` is a function `Int → Option BankAccount`
  (`find` is application, `operator[]`-assignment is `Function.update`);
* the successive results of `rand()` are a stream `Nat → Nat`, and the `do … while` loop of
  `generateAccountNumber` runs on a fuel that counts its iterations: `none` means that the
  loop is still running when the fuel is spent.
-/

namespace MainCpp

/-! ## C++ `int` -/

/-- The least value of a 32-bit `int`. -/
def INT_MIN : Int := -2147483648

/-- The greatest value of a 32-bit `int`. -/
def INT_MAX : Int := 2147483647

/-- The values a C++ `int` can hold. -/
def IsInt (x : Int) : Prop := INT_MIN ≤ x ∧ x ≤ INT_MAX

instance (x : Int) : Decidable (IsInt x) := by
  unfold IsInt; infer_instance

/-- The 32-bit two's-complement value stored for the exact result `x`. -/
def wrapInt (x : Int) : Int := (x + 2147483648) % 4294967296 - 2147483648

/-! ## What the program prints -/

/-- The lines printed by the operations of `main.cpp` that the properties talk about. -/
inductive Output where
  /-- Prints "Deposit successful. New balance: " followed by the balance. -/
  | depositSuccessful (newBalance : Int)
  /-- Prints "Invalid deposit amount." -/
  | invalidDeposit
  /-- Prints "Insufficient balance. Withdrawal failed." -/
  | insufficientBalance
  /-- Prints "Invalid withdrawal amount." -/
  | invalidWithdrawal
  /-- Prints "Withdrawal successful. Remaining balance: " followed by the balance. -/
  | withdrawalSuccessful (remaining : Int)
  /-- Prints "Initial deposit cannot be negative. Account not created." -/
  | negativeInitialDeposit
  /-- Prints "Your account has been created. Your account number is: " followed by the
  number. -/
  | accountCreated (accountNumber : Int)
  /-- Prints "Account not found." -/
  | accountNotFound
  deriving DecidableEq, Repr

/-! ## `class BankAccount` -/

/-- The four private fields of `class BankAccount`. -/
structure BankAccount where
  name : String
  address : String
  accountType : Char
  balance : Int
  deriving DecidableEq, Repr

namespace BankAccount

/-- Embeds `void BankAccount::depositMoney(int amount)`: the account afterwards and the line
printed. -/
def depositMoney (self : BankAccount) (amount : Int) : BankAccount × Output :=
  if amount > 0 then
    let balance := wrapInt (self.balance + amount)
    ({ self with balance := balance }, Output.depositSuccessful balance)
  else
    (self, Output.invalidDeposit)

/-- Embeds `bool BankAccount::withdrawMoney(int amount)`: the account afterwards, the value
returned and the line printed. -/
def withdrawMoney (self : BankAccount) (amount : Int) : BankAccount × Bool × Output :=
  if amount > self.balance then
    (self, false, Output.insufficientBalance)
  else if amount ≤ 0 then
    (self, false, Output.invalidWithdrawal)
  else
    let balance := wrapInt (self.balance - amount)
    ({ self with balance := balance }, true, Output.withdrawalSuccessful balance)

/-- The account-type label printed by `BankAccount::displayAccount`. -/
def accountTypeLabel (self : BankAccount) : String :=
  if self.accountType = 's' then "Savings" else "Current"

/-- Embeds `void BankAccount::displayAccount() const`: the four lines printed. -/
def displayAccount (self : BankAccount) : List String :=
  [ "Name: " ++ self.name,
    "Address: " ++ self.address,
    "Account Type: " ++ self.accountTypeLabel,
    "Balance: " ++ toString self.balance ]

end BankAccount

/-! ## `class Bank` -/

/-- The field of `class Bank`: `map<int, BankAccount> accounts`. -/
structure Bank where
  accounts : Int → Option BankAccount

namespace Bank

/-- The bank `main` starts with: `Bank bank;`, an empty map. -/
def empty : Bank := ⟨fun _ => none⟩

/-- Embeds `int Bank::generateAccountNumber()`.  `draws i` is the result of the `i`-th call
of `rand()` after the `srand`, a value of `[0, RAND_MAX]`; each unit of fuel is one iteration
of the `do … while` loop, and `none` says that the loop has not ended within the fuel. -/
def generateAccountNumber (self : Bank) (draws : Nat → Nat) : Nat → Option Int
  | 0 => none
  | fuel + 1 =>
    let accountNumber : Int := ((draws 0 % 900000 + 100000 : Nat) : Int)
    if (self.accounts accountNumber).isSome then
      generateAccountNumber self (fun i => draws (i + 1)) fuel
    else
      some accountNumber

/-- Embeds `void Bank::openAccount()`, as a function of the four values it reads.  The result
is `none` when `generateAccountNumber` has not returned within the fuel. -/
def openAccount (self : Bank) (name address : String) (accountType : Char)
    (initialDeposit : Int) (draws : Nat → Nat) (fuel : Nat) : Option (Bank × Output) :=
  if initialDeposit < 0 then
    some (self, Output.negativeInitialDeposit)
  else
    match self.generateAccountNumber draws fuel with
    | none => none
    | some accountNumber =>
      some (⟨Function.update self.accounts accountNumber
              (some ⟨name, address, accountType, initialDeposit⟩)⟩,
            Output.accountCreated accountNumber)

/-- Embeds `void Bank::depositMoney()`, as a function of the account number and the amount
read (the amount is read only when the account exists). -/
def depositMoney (self : Bank) (accountNumber amount : Int) : Bank × Output :=
  match self.accounts accountNumber with
  | some account =>
    let r := account.depositMoney amount
    (⟨Function.update self.accounts accountNumber (some r.1)⟩, r.2)
  | none => (self, Output.accountNotFound)

/-- Embeds `void Bank::withdrawMoney()`, as a function of the account number and the amount
read (the amount is read only when the account exists). -/
def withdrawMoney (self : Bank) (accountNumber amount : Int) : Bank × Output :=
  match self.accounts accountNumber with
  | some account =>
    let r := account.withdrawMoney amount
    (⟨Function.update self.accounts accountNumber (some r.1)⟩, r.2.2)
  | none => (self, Output.accountNotFound)

end Bank

/-! ## Sequences of calls on one account -/

/-- A call of one of the two mutating member functions of `BankAccount`. -/
inductive Call where
  | depositMoney (amount : Int)
  | withdrawMoney (amount : Int)
  deriving DecidableEq, Repr

namespace Call

/-- The account after the call, and whether the call succeeded: `depositMoney` succeeds when
it prints "Deposit successful", `withdrawMoney` when it returns `true`. -/
def run (account : BankAccount) : Call → BankAccount × Bool
  | depositMoney amount =>
    let r := account.depositMoney amount
    (r.1, match r.2 with
          | Output.depositSuccessful _ => true
          | _ => false)
  | withdrawMoney amount =>
    let r := account.withdrawMoney amount
    (r.1, r.2.1)

/-- The amount the call deposits: its argument for `depositMoney`, nothing for
`withdrawMoney`. -/
def deposited : Call → Int
  | depositMoney amount => amount
  | withdrawMoney _ => 0

/-- The amount the call withdraws: its argument for `withdrawMoney`, nothing for
`depositMoney`. -/
def withdrawn : Call → Int
  | depositMoney _ => 0
  | withdrawMoney amount => amount

end Call

/-- The account after the calls, run in order, and whether all of them succeeded. -/
def runCalls (account : BankAccount) : List Call → BankAccount × Bool
  | [] => (account, true)
  | c :: cs =>
    let r := c.run account
    let rest := runCalls r.1 cs
    (rest.1, r.2 && rest.2)

/-- The exact sum of the amounts deposited by the calls. -/
def deposits (cs : List Call) : Int := (cs.map Call.deposited).sum

/-- The exact sum of the amounts withdrawn by the calls. -/
def withdrawals (cs : List Call) : Int := (cs.map Call.withdrawn).sum

/-! ## The bank as a state machine -/

/-- One choice of the menu of `main` that changes the bank, with the values it reads. -/
inductive Op where
  | openAccount (name address : String) (accountType : Char) (initialDeposit : Int)
      (draws : Nat → Nat) (fuel : Nat)
  | depositMoney (accountNumber amount : Int)
  | withdrawMoney (accountNumber amount : Int)

namespace Op

/-- The integers the step reads are C++ `int`s. -/
def ReadsInts : Op → Prop
  | openAccount _ _ _ initialDeposit _ _ => IsInt initialDeposit
  | depositMoney accountNumber amount => IsInt accountNumber ∧ IsInt amount
  | withdrawMoney accountNumber amount => IsInt accountNumber ∧ IsInt amount

/-- The step adds nothing that exceeds `INT_MAX`: when it is a deposit of a positive amount
into an existing account, the exact sum of balance and amount is at most `INT_MAX`. -/
def NoOverflow (bank : Bank) : Op → Prop
  | depositMoney accountNumber amount =>
    ∀ account, bank.accounts accountNumber = some account → 0 < amount →
      account.balance + amount ≤ INT_MAX
  | _ => True

end Op

namespace Bank

/-- The bank after one step; `none` when the step is an `openAccount` whose
`generateAccountNumber` has not returned within the fuel. -/
def step (self : Bank) : Op → Option Bank
  | Op.openAccount name address accountType initialDeposit draws fuel =>
    (self.openAccount name address accountType initialDeposit draws fuel).map Prod.fst
  | Op.depositMoney accountNumber amount => some (self.depositMoney accountNumber amount).1
  | Op.withdrawMoney accountNumber amount => some (self.withdrawMoney accountNumber amount).1

/-- The bank after the steps, run in order. -/
def run (self : Bank) : List Op → Option Bank
  | [] => some self
  | op :: ops =>
    match self.step op with
    | some next => run next ops
    | none => none

/-- No step of the run adds anything that exceeds `INT_MAX`. -/
def RunNoOverflow (self : Bank) : List Op → Prop
  | [] => True
  | op :: ops =>
    op.NoOverflow self ∧
      match self.step op with
      | some next => RunNoOverflow next ops
      | none => True

/-- The stores the program can be in: those a finite run of steps reading `int`s reaches
from the empty bank. -/
def Reachable (bank : Bank) : Prop :=
  ∃ ops : List Op, (∀ op ∈ ops, op.ReadsInts) ∧ Bank.empty.run ops = some bank

/-- The invariant carried along a run: every balance in the store is in `[0, INT_MAX]`. -/
def BalancesInRange (self : Bank) : Prop :=
  ∀ n account, self.accounts n = some account →
    0 ≤ account.balance ∧ account.balance ≤ INT_MAX

/-- Every identifier of `[100000, 999999]` is a key of the map. -/
def Full (self : Bank) : Prop :=
  ∀ n : Int, 100000 ≤ n → n ≤ 999999 → (self.accounts n).isSome = true

/-- A bank with two accounts, numbers 100041 and 100007. -/
def twoAccounts : Bank :=
  ⟨fun n =>
    if n = 100041 then some ⟨"Alice", "1 Main St", 's', 650⟩
    else if n = 100007 then some ⟨"Bob", "2 Side St", 'c', 20⟩
    else none⟩

/-- The bank whose keys are exactly the 900,000 identifiers of `[100000, 999999]`, each
mapped to a default-constructed account. -/
def full : Bank :=
  ⟨fun n => if 100000 ≤ n ∧ n ≤ 999999 then some ⟨"", "", 's', 0⟩ else none⟩

end Bank

end MainCpp

namespace BankC

/-!
## `src/bank.c`

`saveAccounts` and `loadAccounts` copy object representations between memory and the file, so
the embedding keeps memory as bytes.  The layout is the one of the usual 32- and 64-bit
little-endian targets: `sizeof(int) = 4` in two's complement, and
`sizeof(BankAccount) = 32` with `accountNumber` at offset 0 (20 bytes), 4 bytes of padding,
and `balance` at offset 24 (8 bytes).  A `double` is carried as its 64-bit pattern, which is
all that `fwrite` and `fread` see of it.
-/

/-- A byte of memory or of the file. -/
abbrev Byte := Fin 256

/-- Embeds `#define MAX_ACCOUNTS 100` -/
def MAX_ACCOUNTS : Nat := 100

/-- Embeds `sizeof(int)` -/
def sizeofInt : Nat := 4

/-- Embeds `sizeof(BankAccount)` -/
def sizeofBankAccount : Nat := 32

/-- Embeds `sizeof(accounts[i].accountNumber)`, the `char[20]` at offset 0. -/
def sizeofAccountNumber : Nat := 20

/-- Embeds `offsetof(BankAccount, balance)` -/
def offsetofBalance : Nat := 24

/-- Embeds `sizeof(double)` -/
def sizeofDouble : Nat := 8

/-- The `width` bytes of the unsigned value `v`, least significant byte first. -/
def toBytes : Nat → Nat → List Byte
  | 0, _ => []
  | width + 1, v => ⟨v % 256, Nat.mod_lt _ (by decide)⟩ :: toBytes width (v / 256)

/-- The unsigned value of bytes, least significant byte first. -/
def ofBytes : List Byte → Nat
  | [] => 0
  | b :: bs => b.val + 256 * ofBytes bs

/-- The object representation of an `int`: 4 bytes, two's complement. -/
def intToBytes (x : Int) : List Byte := toBytes sizeofInt (x % 4294967296).toNat

/-- The `int` an object representation stands for. -/
def intOfBytes (bs : List Byte) : Int :=
  if ofBytes bs < 2147483648 then (ofBytes bs : Int) else (ofBytes bs : Int) - 4294967296

/-- The conversion of an `int` to the `size_t` count that `fwrite` and `fread` take. -/
def toSizeT (x : Int) : Nat := (x % 18446744073709551616).toNat

/-- The value of one `BankAccount`: the 20 characters of `accountNumber` and the 64-bit
pattern of the `double balance`. -/
structure BankAccount where
  accountNumber : List Byte
  balance : Nat
  deriving DecidableEq, Repr

/-- The two globals of `bank.c`: the memory of `BankAccount accounts[MAX_ACCOUNTS]`
(`MAX_ACCOUNTS * sizeof(BankAccount)` bytes) and `int accountCount`. -/
structure Globals where
  accounts : List Byte
  accountCount : Int

namespace Globals

/-- The globals at program start: static storage is zero-initialised and
`accountCount = 0`. -/
def initial : Globals := ⟨List.replicate (MAX_ACCOUNTS * sizeofBankAccount) 0, 0⟩

/-- The value of `accounts[i]`, read from memory. -/
def account (g : Globals) (i : Nat) : BankAccount :=
  { accountNumber := (g.accounts.drop (i * sizeofBankAccount)).take sizeofAccountNumber
    balance :=
      ofBytes ((g.accounts.drop (i * sizeofBankAccount + offsetofBalance)).take sizeofDouble) }

end Globals

/-- Embeds `fwrite(ptr, size, count, file)`: the bytes appended to the file.  `ptr` is the
memory from the pointer to the end of its object; reading beyond it is undefined in C, and
the model stops there. -/
def fwrite (ptr : List Byte) (size count : Nat) : List Byte :=
  ptr.take (size * count)

/-- Embeds `fread(ptr, size, count, file)`: the memory at `ptr` afterwards and the rest of the
stream.  The bytes read, at most `size * count` and at most what the stream holds, replace
the first bytes of the memory. -/
def fread (ptr : List Byte) (size count : Nat) (stream : List Byte) : List Byte × List Byte :=
  let n := min (size * count) stream.length
  (stream.take n ++ ptr.drop n, stream.drop n)

/-- Embeds `void saveAccounts()`: the content of `accounts.dat` afterwards (`none`: no such
file).  `fopenOk` tells whether `fopen(DATA_FILE, "wb")` returned a stream. -/
def saveAccounts (g : Globals) (fopenOk : Bool) (disk : Option (List Byte)) :
    Option (List Byte) :=
  if fopenOk then
    some (fwrite (intToBytes g.accountCount) sizeofInt 1 ++
          fwrite g.accounts sizeofBankAccount (toSizeT g.accountCount))
  else
    disk

/-- Embeds `void loadAccounts()`: the globals afterwards.  `fopen(DATA_FILE, "rb")` returns a
stream when `fopenOk` holds and the file exists. -/
def loadAccounts (g : Globals) (fopenOk : Bool) (disk : Option (List Byte)) : Globals :=
  match fopenOk, disk with
  | true, some file =>
    let count := fread (intToBytes g.accountCount) sizeofInt 1 file
    let accountCount := intOfBytes count.1
    let records := fread g.accounts sizeofBankAccount (toSizeT accountCount) count.2
    { accounts := records.1, accountCount := accountCount }
  | _, _ => g

/-- A store with one account: number "A1", balance 1.0 (bit pattern `0x3FF0000000000000`). -/
def oneAccount : Globals :=
  ⟨[65, 49] ++ List.replicate 18 0 ++ List.replicate 4 0 ++ [0, 0, 0, 0, 0, 0, 240, 63]
      ++ List.replicate 3168 0, 1⟩

end BankC
namespace MainCpp

/-! ## Arithmetic of `wrapInt` -/

theorem wrapInt_of_isInt {x : Int} (h : IsInt x) : wrapInt x = x := by
  unfold IsInt INT_MIN INT_MAX at h
  unfold wrapInt
  omega

theorem isInt_wrapInt (x : Int) : IsInt (wrapInt x) := by
  unfold IsInt INT_MIN INT_MAX wrapInt
  omega

/-! ## C1: a successful deposit or withdrawal changes the balance by the amount -/

/-- C1, as stated, fails: on an account whose balance is `INT_MAX = 2147483647`,
`depositMoney(1)` takes the success branch (`1 > 0`) and prints "Deposit successful", yet the
balance it stores is `-2147483648`, not `2147483647 + 1`. -/
theorem depositMoney_exact_counterexample :
    IsInt 2147483647 ∧ IsInt 1 ∧ (1 : Int) > 0 ∧
    ((BankAccount.mk "Alice" "1 Main St" 's' 2147483647).depositMoney 1).2
      = Output.depositSuccessful (-2147483648) ∧
    ((BankAccount.mk "Alice" "1 Main St" 's' 2147483647).depositMoney 1).1.balance
      ≠ 2147483647 + 1 := by
  decide

/-- C1, amended: for every account (its balance an `int`) and every amount `a`, a successful
`depositMoney(a)` (`a > 0`) whose exact sum `balance + a` does not exceed `INT_MAX` leaves the
balance equal to the old balance plus exactly `a`, and a successful `withdrawMoney(a)` (it
returns `true`) leaves the balance equal to the old balance minus exactly `a`. -/
theorem depositMoney_withdrawMoney_exact (account : BankAccount) (a : Int)
    (hbal : IsInt account.balance) :
    (a > 0 → account.balance + a ≤ INT_MAX →
      (account.depositMoney a).2 = Output.depositSuccessful (account.balance + a) ∧
      (account.depositMoney a).1.balance = account.balance + a) ∧
    ((account.withdrawMoney a).2.1 = true →
      (account.withdrawMoney a).1.balance = account.balance - a) := by
  constructor
  · intro ha hsum
    have hw : wrapInt (account.balance + a) = account.balance + a := by
      apply wrapInt_of_isInt
      unfold IsInt INT_MIN INT_MAX at *
      omega
    simp [BankAccount.depositMoney, ha, hw]
  · intro hret
    unfold BankAccount.withdrawMoney at hret ⊢
    split_ifs at hret ⊢ with h1 h2
    · have hw : wrapInt (account.balance - a) = account.balance - a := by
        apply wrapInt_of_isInt
        unfold IsInt INT_MIN INT_MAX at *
        omega
      simp [hw]

/-- C1, amended, at a concrete account: from balance 500, `depositMoney(250)` gives 750 and
`withdrawMoney(250)` gives 250. -/
theorem depositMoney_withdrawMoney_exact_witness :
    ((BankAccount.mk "Alice" "1 Main St" 's' 500).depositMoney 250).1.balance = 500 + 250 ∧
    ((BankAccount.mk "Alice" "1 Main St" 's' 500).withdrawMoney 250).1.balance = 500 - 250 :=
  ⟨((depositMoney_withdrawMoney_exact ⟨"Alice", "1 Main St", 's', 500⟩ 250 (by decide)).1
      (by decide) (by decide)).2,
   (depositMoney_withdrawMoney_exact ⟨"Alice", "1 Main St", 's', 500⟩ 250 (by decide)).2
      (by decide)⟩

/-! ## C2: a withdrawal that exceeds the balance -/

/-- C2: for every account and every amount with `amount > balance`, `withdrawMoney(amount)`
leaves the account (so its balance) unchanged, returns `false`, and prints the
insufficient-balance line, not the invalid-amount line. -/
theorem withdrawMoney_insufficient (account : BankAccount) (amount : Int)
    (h : amount > account.balance) :
    (account.withdrawMoney amount).1 = account ∧
    (account.withdrawMoney amount).1.balance = account.balance ∧
    (account.withdrawMoney amount).2.1 = false ∧
    (account.withdrawMoney amount).2.2 = Output.insufficientBalance ∧
    (account.withdrawMoney amount).2.2 ≠ Output.invalidWithdrawal := by
  simp [BankAccount.withdrawMoney, h]

/-- C2 at a concrete account: balance 650, `withdrawMoney(10000)`. -/
theorem withdrawMoney_insufficient_witness :
    ((BankAccount.mk "Alice" "1 Main St" 's' 650).withdrawMoney 10000).1.balance = 650 ∧
    ((BankAccount.mk "Alice" "1 Main St" 's' 650).withdrawMoney 10000).2.1 = false ∧
    ((BankAccount.mk "Alice" "1 Main St" 's' 650).withdrawMoney 10000).2.2
      = Output.insufficientBalance :=
  have h := withdrawMoney_insufficient ⟨"Alice", "1 Main St", 's', 650⟩ 10000 (by decide)
  ⟨h.2.1, h.2.2.1, h.2.2.2.1⟩

/-! ## C3: a non-positive amount -/

/-- C3, as stated, fails: the public constructor builds an account of balance `-1`, and on it
`withdrawMoney(0)` prints the insufficient-balance line, not the invalid-amount line, because
`amount > balance` is tested first.  The bank itself reaches such an account: after
`openAccount` with deposit 2147483647 (account number 100000) and a deposit of 1, the balance
is negative and `Bank::withdrawMoney` of amount 0 prints the insufficient-balance line. -/
theorem withdrawMoney_invalid_counterexample :
    ((0 : Int) ≤ 0 ∧ IsInt (-1) ∧
      ((BankAccount.mk "Alice" "1 Main St" 's' (-1)).withdrawMoney 0).2.2
        = Output.insufficientBalance ∧
      ((BankAccount.mk "Alice" "1 Main St" 's' (-1)).withdrawMoney 0).2.2
        ≠ Output.invalidWithdrawal) ∧
    ∃ bank : Bank,
      Bank.empty.run [Op.openAccount "Alice" "1 Main St" 's' 2147483647 (fun _ => 0) 1,
                      Op.depositMoney 100000 1] = some bank ∧
      (bank.withdrawMoney 100000 0).2 = Output.insufficientBalance :=
  ⟨by decide, _, rfl, by decide⟩

/-- C3, amended: for every account and every amount `a ≤ 0`, `depositMoney(a)` leaves the
account unchanged and prints the invalid-amount line; `withdrawMoney(a)` leaves the account
unchanged and returns `false`, and it prints the invalid-amount line when `a ≤ balance` (so
whenever the balance is not negative); when `a > balance` it prints the insufficient-balance
line instead. -/
theorem nonpositive_amount_rejected (account : BankAccount) (a : Int) (ha : a ≤ 0) :
    (account.depositMoney a).1 = account ∧
    (account.depositMoney a).2 = Output.invalidDeposit ∧
    (account.withdrawMoney a).1 = account ∧
    (account.withdrawMoney a).2.1 = false ∧
    (a ≤ account.balance → (account.withdrawMoney a).2.2 = Output.invalidWithdrawal) ∧
    (0 ≤ account.balance → (account.withdrawMoney a).2.2 = Output.invalidWithdrawal) ∧
    (a > account.balance → (account.withdrawMoney a).2.2 = Output.insufficientBalance) := by
  have hdep : ¬ (a > 0) := by omega
  refine ⟨by simp [BankAccount.depositMoney, hdep], by simp [BankAccount.depositMoney, hdep],
    ?_, ?_, ?_, ?_, ?_⟩
  · unfold BankAccount.withdrawMoney
    split_ifs <;> rfl
  · unfold BankAccount.withdrawMoney
    split_ifs <;> rfl
  · intro hle
    have h1 : ¬ (a > account.balance) := by omega
    simp [BankAccount.withdrawMoney, h1, ha]
  · intro hle
    have h1 : ¬ (a > account.balance) := by omega
    simp [BankAccount.withdrawMoney, h1, ha]
  · intro hgt
    simp [BankAccount.withdrawMoney, hgt]

/-- C3, amended, at concrete accounts: `depositMoney(0)` and `withdrawMoney(0)` on balance
650, and `withdrawMoney(-5)` on balance `-7`. -/
theorem nonpositive_amount_rejected_witness :
    ((BankAccount.mk "Alice" "1 Main St" 's' 650).depositMoney 0).2 = Output.invalidDeposit ∧
    ((BankAccount.mk "Alice" "1 Main St" 's' 650).withdrawMoney 0).2.2
      = Output.invalidWithdrawal ∧
    ((BankAccount.mk "Alice" "1 Main St" 's' (-7)).withdrawMoney (-5)).2.2
      = Output.insufficientBalance :=
  ⟨(nonpositive_amount_rejected ⟨"Alice", "1 Main St", 's', 650⟩ 0 (by decide)).2.1,
   (nonpositive_amount_rejected ⟨"Alice", "1 Main St", 's', 650⟩ 0 (by decide)).2.2.2.2.1
      (by decide),
   (nonpositive_amount_rejected ⟨"Alice", "1 Main St", 's', (-7)⟩ (-5) (by decide)).2.2.2.2.2.2
      (by decide)⟩

/-! ## C5: deposits and withdrawals touch the named account only -/

theorem Bank.depositMoney_accounts_of_ne (bank : Bank) (n a m : Int) (hm : m ≠ n) :
    (bank.depositMoney n a).1.accounts m = bank.accounts m := by
  unfold Bank.depositMoney
  cases h : bank.accounts n with
  | none => rfl
  | some account => simp [Function.update_noteq hm]

theorem Bank.withdrawMoney_accounts_of_ne (bank : Bank) (n a m : Int) (hm : m ≠ n) :
    (bank.withdrawMoney n a).1.accounts m = bank.accounts m := by
  unfold Bank.withdrawMoney
  cases h : bank.accounts n with
  | none => rfl
  | some account => simp [Function.update_noteq hm]

theorem Bank.depositMoney_isSome (bank : Bank) (n a m : Int) :
    ((bank.depositMoney n a).1.accounts m).isSome = (bank.accounts m).isSome := by
  by_cases hm : m = n
  · subst hm
    unfold Bank.depositMoney
    cases h : bank.accounts m with
    | none => simp [h]
    | some account => simp
  · rw [Bank.depositMoney_accounts_of_ne bank n a m hm]

theorem Bank.withdrawMoney_isSome (bank : Bank) (n a m : Int) :
    ((bank.withdrawMoney n a).1.accounts m).isSome = (bank.accounts m).isSome := by
  by_cases hm : m = n
  · subst hm
    unfold Bank.withdrawMoney
    cases h : bank.accounts m with
    | none => simp [h]
    | some account => simp
  · rw [Bank.withdrawMoney_accounts_of_ne bank n a m hm]

/-- C5: for every store, account number `n` and amount `a`, `Bank::depositMoney` and
`Bank::withdrawMoney` leave the key set of the map unchanged (`m` is a key afterwards exactly
when it was one before) and leave every account whose key differs from `n` exactly as it was
(the whole record: name, address, type and balance); when `n` is not a key, the whole store
is unchanged and "Account not found." is printed. -/
theorem deposit_withdraw_frame (bank : Bank) (n a : Int) :
    (∀ m, ((bank.depositMoney n a).1.accounts m).isSome = (bank.accounts m).isSome) ∧
    (∀ m, ((bank.withdrawMoney n a).1.accounts m).isSome = (bank.accounts m).isSome) ∧
    (∀ m, m ≠ n → (bank.depositMoney n a).1.accounts m = bank.accounts m) ∧
    (∀ m, m ≠ n → (bank.withdrawMoney n a).1.accounts m = bank.accounts m) ∧
    (bank.accounts n = none →
      bank.depositMoney n a = (bank, Output.accountNotFound) ∧
      bank.withdrawMoney n a = (bank, Output.accountNotFound)) := by
  refine ⟨Bank.depositMoney_isSome bank n a, Bank.withdrawMoney_isSome bank n a,
    Bank.depositMoney_accounts_of_ne bank n a, Bank.withdrawMoney_accounts_of_ne bank n a, ?_⟩
  intro hn
  simp [Bank.depositMoney, Bank.withdrawMoney, hn]

/-- C5 at a concrete store: on the empty bank, account number 999999999 is not a key, so a
deposit and a withdrawal both leave the bank as it is and print "Account not found.". -/
theorem deposit_withdraw_frame_witness :
    Bank.empty.depositMoney 999999999 5 = (Bank.empty, Output.accountNotFound) ∧
    Bank.empty.withdrawMoney 999999999 5 = (Bank.empty, Output.accountNotFound) :=
  (deposit_withdraw_frame Bank.empty 999999999 5).2.2.2.2 rfl

/-! ## C6: opening an account -/

theorem Bank.generateAccountNumber_spec (bank : Bank) (fuel : Nat) :
    ∀ (draws : Nat → Nat) (id : Int), bank.generateAccountNumber draws fuel = some id →
      100000 ≤ id ∧ id ≤ 999999 ∧ bank.accounts id = none := by
  induction fuel with
  | zero => intro draws id h; simp [Bank.generateAccountNumber] at h
  | succ fuel ih =>
    intro draws id h
    unfold Bank.generateAccountNumber at h
    simp only at h
    split_ifs at h with hkey
    · exact ih _ id h
    · have hid : ((draws 0 % 900000 + 100000 : Nat) : Int) = id := by simpa using h
      refine ⟨by omega, by omega, ?_⟩
      rw [← hid]
      simpa using hkey

/-- The loop of `generateAccountNumber` returns as soon as a draw gives an identifier that
is not a key: with a fresh candidate at draw `k`, `k + 1` iterations are enough. -/
theorem Bank.generateAccountNumber_returns (bank : Bank) (k : Nat) :
    ∀ (draws : Nat → Nat),
      bank.accounts ((draws k % 900000 + 100000 : Nat) : Int) = none →
      ∃ id, bank.generateAccountNumber draws (k + 1) = some id := by
  induction k with
  | zero =>
    intro draws h
    refine ⟨((draws 0 % 900000 + 100000 : Nat) : Int), ?_⟩
    unfold Bank.generateAccountNumber
    simp only [h]
    rfl
  | succ k ih =>
    intro draws h
    unfold Bank.generateAccountNumber
    simp only
    split_ifs with hkey
    · exact ih (fun i => draws (i + 1)) h
    · exact ⟨_, rfl⟩

/-- When `generateAccountNumber` returns, what it returns is the candidate of the first fresh
draw, and that draw is among the iterations run. -/
theorem Bank.generateAccountNumber_eq_some (bank : Bank) (fuel : Nat) :
    ∀ (draws : Nat → Nat) (id : Int), bank.generateAccountNumber draws fuel = some id →
      ∃ k, k < fuel ∧
        (∀ j, j < k →
          (bank.accounts ((draws j % 900000 + 100000 : Nat) : Int)).isSome = true) ∧
        bank.accounts ((draws k % 900000 + 100000 : Nat) : Int) = none ∧
        id = ((draws k % 900000 + 100000 : Nat) : Int) := by
  induction fuel with
  | zero => intro draws id h; simp [Bank.generateAccountNumber] at h
  | succ fuel ih =>
    intro draws id h
    unfold Bank.generateAccountNumber at h
    simp only at h
    split_ifs at h with hkey
    · obtain ⟨k, hk, hcoll, hfresh, hid⟩ := ih _ id h
      refine ⟨k + 1, by omega, ?_, hfresh, hid⟩
      intro j hj
      cases j with
      | zero => exact hkey
      | succ j => exact hcoll j (by omega)
    · refine ⟨0, by omega, fun j hj => absurd hj (Nat.not_lt_zero j), ?_, ?_⟩
      · cases hacc : bank.accounts ((draws 0 % 900000 + 100000 : Nat) : Int) with
        | none => rfl
        | some account =>
          rw [hacc] at hkey
          exact absurd rfl hkey
      · exact (Option.some.inj h).symm

/-- C6: for every store, every sequence of draws, every number of loop iterations and every
initial deposit `d ≥ 0`.  `generateAccountNumber` returns `id` exactly when `id` is the
candidate `rand() % 900000 + 100000` of the first draw `k` that is not a key (draws
`0 … k - 1` all collide and are retried) and the loop is given more than `k` iterations;
either side is accepted as the hypothesis and both are proved.  In that case `openAccount`
returns, prints that account number `id` was created, `100000 ≤ id ≤ 999999`, `id` was not a
key of the store before the call, afterwards the store maps `id` to the account with the
given name, address, type and balance `d`, every other key is mapped as before (so every
previously present account is unchanged), and no later `openAccount` on the resulting store
creates account number `id` again: two successive opens return distinct ids. -/
theorem openAccount_fresh (bank : Bank) (name address : String) (accountType : Char)
    (d : Int) (draws : Nat → Nat) (fuel : Nat) (id : Int)
    (hd : 0 ≤ d)
    (hret : bank.generateAccountNumber draws fuel = some id ∨
      ∃ k, k < fuel ∧
        (∀ j, j < k →
          (bank.accounts ((draws j % 900000 + 100000 : Nat) : Int)).isSome = true) ∧
        bank.accounts ((draws k % 900000 + 100000 : Nat) : Int) = none ∧
        id = ((draws k % 900000 + 100000 : Nat) : Int)) :
    bank.generateAccountNumber draws fuel = some id ∧
    (∃ k, k < fuel ∧
      (∀ j, j < k →
        (bank.accounts ((draws j % 900000 + 100000 : Nat) : Int)).isSome = true) ∧
      bank.accounts ((draws k % 900000 + 100000 : Nat) : Int) = none ∧
      id = ((draws k % 900000 + 100000 : Nat) : Int)) ∧
    ∃ bank' : Bank,
      bank.openAccount name address accountType d draws fuel
        = some (bank', Output.accountCreated id) ∧
      100000 ≤ id ∧ id ≤ 999999 ∧
      bank.accounts id = none ∧
      bank'.accounts id = some ⟨name, address, accountType, d⟩ ∧
      (∀ m, m ≠ id → bank'.accounts m = bank.accounts m) ∧
      (∀ m account, bank.accounts m = some account → bank'.accounts m = some account) ∧
      (∀ name2 address2 accountType2 d2 draws2 fuel2 bank2 id2,
        bank'.openAccount name2 address2 accountType2 d2 draws2 fuel2
          = some (bank2, Output.accountCreated id2) → id2 ≠ id) := by
  -- the loop retries every colliding draw and returns the first fresh candidate
  have hloop : ∀ (k : Nat) (draws : Nat → Nat) (fuel : Nat), k < fuel →
      (∀ j, j < k →
        (bank.accounts ((draws j % 900000 + 100000 : Nat) : Int)).isSome = true) →
      bank.accounts ((draws k % 900000 + 100000 : Nat) : Int) = none →
      bank.generateAccountNumber draws fuel
        = some ((draws k % 900000 + 100000 : Nat) : Int) := by
    intro k
    induction k with
    | zero =>
      intro draws fuel hfuel _ hfresh
      obtain ⟨f, rfl⟩ : ∃ f, fuel = f + 1 := ⟨fuel - 1, by omega⟩
      unfold Bank.generateAccountNumber
      simp only [hfresh]
      rfl
    | succ k ih =>
      intro draws fuel hfuel hcoll hfresh
      obtain ⟨f, rfl⟩ : ∃ f, fuel = f + 1 := ⟨fuel - 1, by omega⟩
      unfold Bank.generateAccountNumber
      simp only [hcoll 0 (Nat.succ_pos k), if_true]
      exact ih (fun i => draws (i + 1)) f (by omega)
        (fun j hj => hcoll (j + 1) (by omega)) hfresh
  have hgen : bank.generateAccountNumber draws fuel = some id := by
    rcases hret with h | ⟨k, hk, hcoll, hfresh, hid⟩
    · exact h
    · rw [hid]
      exact hloop k draws fuel hk hcoll hfresh
  refine ⟨hgen, Bank.generateAccountNumber_eq_some bank fuel draws id hgen, ?_⟩
  obtain ⟨hlo, hhi, hfresh⟩ := Bank.generateAccountNumber_spec bank fuel draws id hgen
  have hneg : ¬ d < 0 := by omega
  refine ⟨⟨Function.update bank.accounts id (some ⟨name, address, accountType, d⟩)⟩,
    ?_, hlo, hhi, hfresh, ?_, ?_, ?_, ?_⟩
  · simp [Bank.openAccount, hneg, hgen]
  · simp
  · intro m hm
    simp [Function.update_noteq hm]
  · intro m account hacc
    have hm : m ≠ id := by
      rintro rfl
      rw [hfresh] at hacc
      cases hacc
    simp [Function.update_noteq hm, hacc]
  · intro name2 address2 accountType2 d2 draws2 fuel2 bank2 id2 hopen hEq
    unfold Bank.openAccount at hopen
    split_ifs at hopen with hd2
    · simp at hopen
    · cases hgen2 : Bank.generateAccountNumber
          ⟨Function.update bank.accounts id (some ⟨name, address, accountType, d⟩)⟩
          draws2 fuel2 with
      | none => simp [hgen2] at hopen
      | some n =>
        simp [hgen2] at hopen
        have hn : n = id2 := hopen.2
        have := (Bank.generateAccountNumber_spec _ fuel2 draws2 n hgen2).2.2
        rw [hn, hEq] at this
        simp at this

/-- C6 at a concrete call with collisions: the bank holds accounts 100041 and 100007 and the
draws are 41, 7, 41, 99.  The first three candidates are keys and are retried; the fourth
iteration returns 100099, `openAccount` stores the new account under it, and the two
accounts that were there are unchanged. -/
theorem openAccount_fresh_witness :
    Bank.twoAccounts.generateAccountNumber (fun i => [41, 7, 41, 99].getD i 0) 4
      = some 100099 ∧
    ∃ bank' : Bank,
      Bank.twoAccounts.openAccount "Carol" "3 High St" 'c' 0
          (fun i => [41, 7, 41, 99].getD i 0) 4
        = some (bank', Output.accountCreated 100099) ∧
      bank'.accounts 100099 = some ⟨"Carol", "3 High St", 'c', 0⟩ ∧
      bank'.accounts 100041 = some ⟨"Alice", "1 Main St", 's', 650⟩ ∧
      bank'.accounts 100007 = some ⟨"Bob", "2 Side St", 'c', 20⟩ :=
  have h := openAccount_fresh Bank.twoAccounts "Carol" "3 High St" 'c' 0
    (fun i => [41, 7, 41, 99].getD i 0) 4 100099 (by decide)
    (Or.inr ⟨3, by decide,
      fun j hj => by interval_cases j <;> decide, by decide, by decide⟩)
  ⟨by decide, h.2.2.elim fun bank' hb =>
    ⟨bank', hb.1, hb.2.2.2.2.1,
      hb.2.2.2.2.2.2.1 100041 ⟨"Alice", "1 Main St", 's', 650⟩ (by decide),
      hb.2.2.2.2.2.2.1 100007 ⟨"Bob", "2 Side St", 'c', 20⟩ (by decide)⟩⟩

/-! ## C9: the account type is not validated -/

/-- C9, as stated, fails: on the empty bank, `openAccount` with account type `'x'` (neither
`'s'` nor `'c'`) and deposit 0 prints that account 100000 was created, and the store, which
had no key 100000, now maps it to an account of type `'x'`. -/
theorem openAccount_invalid_kind_counterexample :
    ('x' ≠ 's' ∧ 'x' ≠ 'c') ∧
    Bank.empty.accounts 100000 = none ∧
    ∃ bank' : Bank,
      Bank.empty.openAccount "Eve" "2 Side St" 'x' 0 (fun _ => 0) 1
        = some (bank', Output.accountCreated 100000) ∧
      bank'.accounts 100000 = some ⟨"Eve", "2 Side St", 'x', 0⟩ :=
  ⟨by decide, rfl, _, rfl, rfl⟩

/-- C9, amended: `openAccount` does not look at the account type.  For every store and every
account-type character that is neither `'s'` nor `'c'`: with a negative initial deposit the
store is unchanged and the negative-deposit line is printed; with an initial deposit `d ≥ 0`
on which `generateAccountNumber` returns `id`, the account is created under `id` with that
character stored as its type, and `displayAccount` labels it "Current". -/
theorem openAccount_any_kind (bank : Bank) (name address : String) (accountType : Char)
    (d : Int) (draws : Nat → Nat) (fuel : Nat)
    (hkind : accountType ≠ 's' ∧ accountType ≠ 'c') :
    (d < 0 → bank.openAccount name address accountType d draws fuel
      = some (bank, Output.negativeInitialDeposit)) ∧
    (0 ≤ d → ∀ id, bank.generateAccountNumber draws fuel = some id →
      ∃ bank' : Bank,
        bank.openAccount name address accountType d draws fuel
          = some (bank', Output.accountCreated id) ∧
        bank'.accounts id = some ⟨name, address, accountType, d⟩ ∧
        (BankAccount.mk name address accountType d).accountTypeLabel = "Current") := by
  constructor
  · intro hd
    simp [Bank.openAccount, hd]
  · intro hd id hgen
    have hneg : ¬ d < 0 := by omega
    refine ⟨⟨Function.update bank.accounts id (some ⟨name, address, accountType, d⟩)⟩,
      ?_, ?_, ?_⟩
    · simp [Bank.openAccount, hneg, hgen]
    · simp
    · simp [BankAccount.accountTypeLabel, hkind.1]

/-- C9, amended, at a concrete call: account type `'x'`, deposit 0, first draw 0. -/
theorem openAccount_any_kind_witness :
    ∃ bank' : Bank,
      Bank.empty.openAccount "Eve" "2 Side St" 'x' 0 (fun _ => 0) 1
        = some (bank', Output.accountCreated 100000) ∧
      bank'.accounts 100000 = some ⟨"Eve", "2 Side St", 'x', 0⟩ ∧
      (BankAccount.mk "Eve" "2 Side St" 'x' 0).accountTypeLabel = "Current" :=
  (openAccount_any_kind Bank.empty "Eve" "2 Side St" 'x' 0 (fun _ => 0) 1
    ⟨by decide, by decide⟩).2 (by decide) 100000 rfl

/-! ## C10: allocation on a full store -/

theorem Bank.generateAccountNumber_of_full (bank : Bank) (hfull : bank.Full) (fuel : Nat) :
    ∀ draws : Nat → Nat, bank.generateAccountNumber draws fuel = none := by
  induction fuel with
  | zero => intro draws; rfl
  | succ fuel ih =>
    intro draws
    unfold Bank.generateAccountNumber
    have hkey : (bank.accounts ((draws 0 % 900000 + 100000 : Nat) : Int)).isSome = true :=
      hfull _ (by omega) (by omega)
    simp only [hkey, if_true]
    exact ih _

theorem Bank.full_isFull : Bank.full.Full := by
  intro n h1 h2
  simp [Bank.full, h1, h2]

/-- C10, as stated, fails: on the store whose keys are all 900,000 identifiers of
`[100000, 999999]`, with every draw equal to 0, `generateAccountNumber` never returns: there
is no number of iterations after which it has produced a result, an exhaustion report
included. -/
theorem generateAccountNumber_exhausted_counterexample :
    Bank.full.Full ∧
    ¬ ∃ fuel : Nat, (Bank.full.generateAccountNumber (fun _ => 0) fuel).isSome = true := by
  refine ⟨Bank.full_isFull, ?_⟩
  rintro ⟨fuel, h⟩
  rw [Bank.generateAccountNumber_of_full Bank.full Bank.full_isFull fuel] at h
  simp at h

/-- C10, amended: for a store whose keys include all 900,000 integers of `[100000, 999999]`,
`generateAccountNumber` never returns: for every sequence of draws and every number of
iterations of its loop, every candidate has collided and the loop is still running. -/
theorem generateAccountNumber_full_never_returns (bank : Bank) (hfull : bank.Full)
    (draws : Nat → Nat) (fuel : Nat) :
    bank.generateAccountNumber draws fuel = none :=
  Bank.generateAccountNumber_of_full bank hfull fuel draws

/-- C10, amended, at a concrete store: the full bank, draws `0, 1, 2, …`, one million
iterations. -/
theorem generateAccountNumber_full_never_returns_witness :
    Bank.full.Full ∧ Bank.full.generateAccountNumber (fun i => i) 1000000 = none :=
  ⟨fun n h1 h2 => by simp [Bank.full, h1, h2],
   generateAccountNumber_full_never_returns Bank.full
     (fun n h1 h2 => by simp [Bank.full, h1, h2]) (fun i => i) 1000000⟩

/-! ## C4: balances stay non-negative as long as no deposit overflows -/

theorem Bank.balancesInRange_empty : Bank.empty.BalancesInRange := by
  intro n account h
  simp [Bank.empty] at h

theorem Bank.balancesInRange_step (bank next : Bank) (op : Op)
    (hinv : bank.BalancesInRange) (hints : op.ReadsInts) (hno : op.NoOverflow bank)
    (hstep : bank.step op = some next) : next.BalancesInRange := by
  cases op with
  | openAccount name address accountType initialDeposit draws fuel =>
    simp only [Bank.step, Bank.openAccount] at hstep
    split_ifs at hstep with hneg
    · simp at hstep
      subst hstep
      exact hinv
    · cases hgen : bank.generateAccountNumber draws fuel with
      | none => simp [hgen] at hstep
      | some id =>
        simp [hgen] at hstep
        subst hstep
        intro n account hacc
        by_cases hn : n = id
        · subst hn
          simp at hacc
          subst hacc
          have h2 : initialDeposit ≤ INT_MAX := hints.2
          exact ⟨by simpa using hneg, h2⟩
        · simp [Function.update_noteq hn] at hacc
          exact hinv n account hacc
  | depositMoney accountNumber amount =>
    simp only [Bank.step, Option.some.injEq] at hstep
    subst hstep
    intro n account hacc
    by_cases hn : n = accountNumber
    · subst hn
      unfold Bank.depositMoney at hacc
      cases hold : bank.accounts n with
      | none =>
        simp [hold] at hacc
      | some old =>
        have hr := hinv n old hold
        simp [hold, BankAccount.depositMoney] at hacc
        split_ifs at hacc with hpos
        · have hsum : old.balance + amount ≤ INT_MAX := hno old hold hpos
          have hw : wrapInt (old.balance + amount) = old.balance + amount := by
            apply wrapInt_of_isInt
            unfold IsInt INT_MIN INT_MAX at *
            omega
          subst hacc
          simp only [hw]
          unfold INT_MAX at *
          omega
        · subst hacc
          exact hr
    · rw [Bank.depositMoney_accounts_of_ne bank accountNumber amount n hn] at hacc
      exact hinv n account hacc
  | withdrawMoney accountNumber amount =>
    simp only [Bank.step, Option.some.injEq] at hstep
    subst hstep
    intro n account hacc
    by_cases hn : n = accountNumber
    · subst hn
      unfold Bank.withdrawMoney at hacc
      cases hold : bank.accounts n with
      | none =>
        simp [hold] at hacc
      | some old =>
        have hr := hinv n old hold
        simp [hold, BankAccount.withdrawMoney] at hacc
        split_ifs at hacc with h1 h2
        · subst hacc
          exact hr
        · subst hacc
          exact hr
        · have hw : wrapInt (old.balance - amount) = old.balance - amount := by
            apply wrapInt_of_isInt
            unfold IsInt INT_MIN INT_MAX at *
            omega
          subst hacc
          simp only [hw]
          unfold INT_MAX at *
          omega
    · rw [Bank.withdrawMoney_accounts_of_ne bank accountNumber amount n hn] at hacc
      exact hinv n account hacc

theorem Bank.balancesInRange_run (ops : List Op) :
    ∀ bank final : Bank, bank.BalancesInRange → (∀ op ∈ ops, op.ReadsInts) →
      bank.RunNoOverflow ops → bank.run ops = some final → final.BalancesInRange := by
  induction ops with
  | nil =>
    intro bank final hinv _ _ hrun
    simp [Bank.run] at hrun
    subst hrun
    exact hinv
  | cons op ops ih =>
    intro bank final hinv hints hno hrun
    unfold Bank.run at hrun
    unfold Bank.RunNoOverflow at hno
    cases hstep : bank.step op with
    | none => simp [hstep] at hrun
    | some next =>
      simp only [hstep] at hrun hno
      exact ih next final
        (Bank.balancesInRange_step bank next op hinv (hints op (List.mem_cons_self _ _))
          hno.1 hstep)
        (fun o ho => hints o (List.mem_cons_of_mem _ ho)) hno.2 hrun

/-- C4, as stated, fails: from the empty bank, opening an account with initial deposit
`INT_MAX = 2147483647` (the first draw 0 gives account number 100000) and then depositing 1
into it are two steps reading `int`s, and they reach a store in which account 100000 has
balance `-2147483648`. -/
theorem balance_nonneg_counterexample :
    (∀ op ∈ [Op.openAccount "Alice" "1 Main St" 's' 2147483647 (fun _ => 0) 1,
              Op.depositMoney 100000 1], op.ReadsInts) ∧
    ∃ bank : Bank,
      Bank.empty.run [Op.openAccount "Alice" "1 Main St" 's' 2147483647 (fun _ => 0) 1,
                      Op.depositMoney 100000 1] = some bank ∧
      Bank.Reachable bank ∧
      bank.accounts 100000 = some ⟨"Alice", "1 Main St", 's', -2147483648⟩ ∧
      ¬ (∀ n account, bank.accounts n = some account → 0 ≤ account.balance) := by
  have hints : ∀ op ∈ [Op.openAccount "Alice" "1 Main St" 's' 2147483647 (fun _ => 0) 1,
      Op.depositMoney 100000 1], op.ReadsInts := by
    intro op hop
    simp only [List.mem_cons, List.mem_singleton, List.not_mem_nil, or_false] at hop
    rcases hop with rfl | rfl
    · show IsInt 2147483647
      decide
    · show IsInt 100000 ∧ IsInt 1
      decide
  refine ⟨hints, _, rfl, ⟨_, hints, rfl⟩, ?_, ?_⟩
  · decide
  · intro h
    have := h 100000 ⟨"Alice", "1 Main St", 's', -2147483648⟩ (by decide)
    revert this
    decide

/-- C4, amended: in every store reached from the empty store by a sequence of `openAccount`,
`depositMoney` and `withdrawMoney` steps reading `int`s in which no deposit overflows (each
deposit of a positive amount into an existing account has `balance + amount ≤ INT_MAX`),
every account has `balance ≥ 0`. -/
theorem balance_nonneg_of_no_overflow (ops : List Op) (bank : Bank)
    (hints : ∀ op ∈ ops, op.ReadsInts) (hno : Bank.empty.RunNoOverflow ops)
    (hrun : Bank.empty.run ops = some bank) :
    ∀ n account, bank.accounts n = some account → 0 ≤ account.balance :=
  fun n account hacc =>
    (Bank.balancesInRange_run ops Bank.empty bank Bank.balancesInRange_empty hints hno hrun
      n account hacc).1

/-- C4, amended, at a concrete run: open with deposit 500 (account 100041), deposit 250,
withdraw 100; no deposit overflows, and every balance of the resulting store is `≥ 0`. -/
theorem balance_nonneg_of_no_overflow_witness :
    ∃ bank : Bank,
      Bank.empty.run [Op.openAccount "Alice" "1 Main St" 's' 500 (fun _ => 41) 1,
                      Op.depositMoney 100041 250, Op.withdrawMoney 100041 100] = some bank ∧
      bank.accounts 100041 = some ⟨"Alice", "1 Main St", 's', 650⟩ ∧
      ∀ n account, bank.accounts n = some account → 0 ≤ account.balance := by
  refine ⟨_, rfl, by decide, ?_⟩
  refine balance_nonneg_of_no_overflow
    [Op.openAccount "Alice" "1 Main St" 's' 500 (fun _ => 41) 1,
     Op.depositMoney 100041 250, Op.withdrawMoney 100041 100] _ ?_ ?_ rfl
  · intro op hop
    simp only [List.mem_cons, List.mem_singleton, List.not_mem_nil, or_false] at hop
    rcases hop with rfl | rfl | rfl
    · show IsInt 500
      decide
    · show IsInt 100041 ∧ IsInt 250
      decide
    · show IsInt 100041 ∧ IsInt 100
      decide
  · refine ⟨trivial, ?_, trivial, trivial⟩
    intro account hacc _
    have hbal : account.balance = 500 := by
      have h : (some (BankAccount.mk "Alice" "1 Main St" 's' 500)) = some account := hacc
      cases h
      rfl
    rw [hbal]
    decide

/-! ## C7: a sequence of successful calls on one account -/

theorem Call.run_balance (account : BankAccount) (c : Call)
    (hlo : 0 ≤ account.balance) (hhi : account.balance ≤ INT_MAX)
    (hsucc : (c.run account).2 = true)
    (hmax : account.balance + c.deposited - c.withdrawn ≤ INT_MAX) :
    (c.run account).1.balance = account.balance + c.deposited - c.withdrawn ∧
    0 ≤ (c.run account).1.balance := by
  cases c with
  | depositMoney amount =>
    simp only [Call.run, BankAccount.depositMoney, Call.deposited, Call.withdrawn] at *
    split_ifs at hsucc ⊢ with hpos
    have hw : wrapInt (account.balance + amount) = account.balance + amount := by
      apply wrapInt_of_isInt
      unfold IsInt INT_MIN INT_MAX at *
      omega
    simp only [hw]
    omega
  | withdrawMoney amount =>
    simp only [Call.run, BankAccount.withdrawMoney, Call.deposited, Call.withdrawn] at *
    split_ifs at hsucc ⊢ with h1 h2
    · have hw : wrapInt (account.balance - amount) = account.balance - amount := by
        apply wrapInt_of_isInt
        unfold IsInt INT_MIN INT_MAX at *
        omega
      simp only [hw]
      omega

theorem deposits_cons (c : Call) (cs : List Call) :
    deposits (c :: cs) = c.deposited + deposits cs := by
  simp [deposits]

theorem withdrawals_cons (c : Call) (cs : List Call) :
    withdrawals (c :: cs) = c.withdrawn + withdrawals cs := by
  simp [withdrawals]

theorem runCalls_take_balance (cs : List Call) :
    ∀ account : BankAccount, 0 ≤ account.balance →
      (runCalls account cs).2 = true →
      (∀ k, k ≤ cs.length →
        account.balance + deposits (cs.take k) - withdrawals (cs.take k) ≤ INT_MAX) →
      ∀ k, k ≤ cs.length →
        (runCalls account (cs.take k)).2 = true ∧
        (runCalls account (cs.take k)).1.balance
          = account.balance + deposits (cs.take k) - withdrawals (cs.take k) ∧
        0 ≤ (runCalls account (cs.take k)).1.balance := by
  induction cs with
  | nil =>
    intro account hB _ _ k _
    simp [runCalls, deposits, withdrawals, hB]
  | cons c cs ih =>
    intro account hB hsucc hmax k hk
    cases k with
    | zero => simp [runCalls, deposits, withdrawals, hB]
    | succ k =>
      have hk' : k ≤ cs.length := by simpa using hk
      simp only [runCalls, Bool.and_eq_true] at hsucc
      have h0 := hmax 0 (Nat.zero_le _)
      have h1 := hmax 1 (by simp)
      simp only [List.take_zero, List.take_succ_cons, deposits_cons, withdrawals_cons] at h0 h1
      simp only [deposits, withdrawals, List.map_nil, List.sum_nil] at h0 h1
      have hstep := Call.run_balance account c hB (by omega) hsucc.1 (by omega)
      have hrest := ih (c.run account).1 hstep.2 hsucc.2
        (by
          intro j hj
          have hj' := hmax (j + 1) (by simpa using hj)
          simp only [List.take_succ_cons, deposits_cons, withdrawals_cons] at hj'
          rw [hstep.1]
          omega)
        k hk'
      simp only [List.take_succ_cons, runCalls, deposits_cons, withdrawals_cons]
      refine ⟨by simp [hsucc.1, hrest.1], ?_, hrest.2.2⟩
      rw [hrest.2.1, hstep.1]
      omega

/-- C7, as stated, fails: on an account of balance `B = 2147483647 ≥ 0`, the one-call
sequence `depositMoney(1)` succeeds, yet the final balance is `-2147483648`: it is not
`B + 1`, and it is negative. -/
theorem runCalls_balance_counterexample :
    (0 : Int) ≤ 2147483647 ∧ IsInt 2147483647 ∧
    (runCalls ⟨"Alice", "1 Main St", 's', 2147483647⟩ [Call.depositMoney 1]).2 = true ∧
    (runCalls ⟨"Alice", "1 Main St", 's', 2147483647⟩ [Call.depositMoney 1]).1.balance
      = -2147483648 ∧
    (runCalls ⟨"Alice", "1 Main St", 's', 2147483647⟩ [Call.depositMoney 1]).1.balance
      ≠ 2147483647 + deposits [Call.depositMoney 1] - withdrawals [Call.depositMoney 1] ∧
    ¬ (0 ≤ (runCalls ⟨"Alice", "1 Main St", 's', 2147483647⟩
              [Call.depositMoney 1]).1.balance) := by
  decide

/-- C7, amended: for every account with starting balance `B ≥ 0` and every finite sequence of
`depositMoney(a_i)` and `withdrawMoney(b_j)` calls on it that all succeed, provided the exact
running total `B + Σ a_i − Σ b_j` after every initial segment of the sequence is at most
`INT_MAX`: the final balance equals `B + (sum of the a_i) − (sum of the b_j)`, and after every
initial segment the balance equals that segment's running total and is `≥ 0`. -/
theorem runCalls_balance (account : BankAccount) (cs : List Call)
    (hB : 0 ≤ account.balance)
    (hsucc : (runCalls account cs).2 = true)
    (hmax : ∀ k, k ≤ cs.length →
      account.balance + deposits (cs.take k) - withdrawals (cs.take k) ≤ INT_MAX) :
    (runCalls account cs).1.balance = account.balance + deposits cs - withdrawals cs ∧
    ∀ k, k ≤ cs.length →
      (runCalls account (cs.take k)).1.balance
        = account.balance + deposits (cs.take k) - withdrawals (cs.take k) ∧
      0 ≤ (runCalls account (cs.take k)).1.balance := by
  have h := runCalls_take_balance cs account hB hsucc hmax
  refine ⟨?_, fun k hk => (h k hk).2⟩
  have hfull := (h cs.length (Nat.le_refl _)).2.1
  simpa using hfull

/-- C7, amended, at a concrete sequence: from balance 500, `depositMoney(250)` then
`withdrawMoney(100)` both succeed and leave `500 + 250 − 100 = 650`. -/
theorem runCalls_balance_witness :
    (runCalls ⟨"Alice", "1 Main St", 's', 500⟩
        [Call.depositMoney 250, Call.withdrawMoney 100]).2 = true ∧
    (runCalls ⟨"Alice", "1 Main St", 's', 500⟩
        [Call.depositMoney 250, Call.withdrawMoney 100]).1.balance
      = 500 + deposits [Call.depositMoney 250, Call.withdrawMoney 100]
          - withdrawals [Call.depositMoney 250, Call.withdrawMoney 100] ∧
    (runCalls ⟨"Alice", "1 Main St", 's', 500⟩
        [Call.depositMoney 250, Call.withdrawMoney 100]).1.balance = 650 :=
  ⟨by decide,
   (runCalls_balance ⟨"Alice", "1 Main St", 's', 500⟩
      [Call.depositMoney 250, Call.withdrawMoney 100] (by decide) (by decide)
      (by
        intro k hk
        have hk3 : k < 3 := Nat.lt_succ_of_le hk
        interval_cases k <;> decide)).1,
   by decide⟩

end MainCpp

namespace BankC

/-! ## C8: the file written by `saveAccounts` is read back by `loadAccounts` -/

theorem toBytes_length (width : Nat) : ∀ v : Nat, (toBytes width v).length = width := by
  induction width with
  | zero => intro v; rfl
  | succ width ih => intro v; simp [toBytes, ih]

theorem ofBytes_toBytes (width : Nat) :
    ∀ v : Nat, ofBytes (toBytes width v) = v % 256 ^ width := by
  induction width with
  | zero => intro v; simp [toBytes, ofBytes, Nat.mod_one]
  | succ width ih =>
    intro v
    simp only [toBytes, ofBytes, ih]
    rw [pow_succ', Nat.mod_mul]

theorem intOfBytes_intToBytes (x : Int) (hlo : -2147483648 ≤ x) (hhi : x ≤ 2147483647) :
    intOfBytes (intToBytes x) = x := by
  unfold intOfBytes intToBytes
  rw [ofBytes_toBytes]
  have hpow : (256 : Nat) ^ sizeofInt = 4294967296 := by decide
  rw [hpow]
  split_ifs with h <;> omega

theorem take_drop_of_take_append (l r : List Byte) (n k m : Nat)
    (hkm : k + m ≤ n) (hn : n ≤ l.length) :
    ((l.take n ++ r).drop k).take m = (l.drop k).take m := by
  apply List.ext_getElem?
  intro i
  by_cases hi : i < m
  · have h1 : k + i < (l.take n).length := by
      rw [List.length_take]
      omega
    rw [List.getElem?_take_of_lt hi, List.getElem?_take_of_lt hi, List.getElem?_drop,
      List.getElem?_drop, List.getElem?_append_left h1, List.getElem?_take_of_lt (by omega)]
  · rw [List.getElem?_eq_none (by rw [List.length_take]; omega),
      List.getElem?_eq_none (by rw [List.length_take]; omega)]

/-- C8: for every store with `0 ≤ accountCount ≤ MAX_ACCOUNTS` (its array holding
`MAX_ACCOUNTS` records), running `saveAccounts` and then `loadAccounts` on the file it wrote,
both `fopen`s succeeding, from any state of the globals, yields the same `accountCount` and,
for every index `i < accountCount`, the same `accountNumber` and the same `balance` as before
the save. -/
theorem save_load_roundtrip (g before : Globals) (disk : Option (List Byte))
    (hmem : g.accounts.length = MAX_ACCOUNTS * sizeofBankAccount)
    (hlo : 0 ≤ g.accountCount) (hhi : g.accountCount ≤ MAX_ACCOUNTS) :
    (loadAccounts before true (saveAccounts g true disk)).accountCount = g.accountCount ∧
    ∀ i : Nat, (i : Int) < g.accountCount →
      ((loadAccounts before true (saveAccounts g true disk)).account i).accountNumber
        = (g.account i).accountNumber ∧
      ((loadAccounts before true (saveAccounts g true disk)).account i).balance
        = (g.account i).balance := by
  unfold MAX_ACCOUNTS at hhi hmem
  unfold sizeofBankAccount at hmem
  have hcountLen : (intToBytes g.accountCount).length = 4 := toBytes_length _ _
  have hbeforeLen : (intToBytes before.accountCount).length = 4 := toBytes_length _ _
  have hsize : toSizeT g.accountCount = g.accountCount.toNat := by
    unfold toSizeT
    congr 1
    omega
  -- the two freads of `loadAccounts`, on the file `saveAccounts` wrote
  have hread1 : fread (intToBytes before.accountCount) sizeofInt 1
      (fwrite (intToBytes g.accountCount) sizeofInt 1 ++
        fwrite g.accounts sizeofBankAccount (toSizeT g.accountCount))
      = (intToBytes g.accountCount,
          g.accounts.take (32 * g.accountCount.toNat)) := by
    simp only [fread, fwrite, sizeofInt, sizeofBankAccount, hsize, Nat.mul_one]
    have htake : List.take 4 (intToBytes g.accountCount) = intToBytes g.accountCount :=
      List.take_of_length_le (by omega)
    have hmin : min 4 (intToBytes g.accountCount ++
        List.take (32 * g.accountCount.toNat) g.accounts).length = 4 := by
      rw [List.length_append, hcountLen]
      omega
    rw [htake, hmin, List.take_left' hcountLen, List.drop_left' hcountLen,
      List.drop_of_length_le (by omega), List.append_nil]
  have hcount : intOfBytes (intToBytes g.accountCount) = g.accountCount :=
    intOfBytes_intToBytes _ (by omega) (by omega)
  have hload : loadAccounts before true (saveAccounts g true disk)
      = { accounts := g.accounts.take (32 * g.accountCount.toNat)
            ++ before.accounts.drop (32 * g.accountCount.toNat),
          accountCount := g.accountCount } := by
    simp only [loadAccounts, saveAccounts, if_true, hread1, hcount]
    simp only [fread, sizeofBankAccount, hsize]
    have hlen : (List.take (32 * g.accountCount.toNat) g.accounts).length
        = 32 * g.accountCount.toNat := by
      rw [List.length_take]
      omega
    rw [hlen, Nat.min_self, List.take_take, Nat.min_self]
  rw [hload]
  refine ⟨rfl, ?_⟩
  intro i hi
  have hin : i < g.accountCount.toNat := by omega
  constructor
  · simp only [Globals.account, sizeofBankAccount, sizeofAccountNumber]
    exact take_drop_of_take_append _ _ _ _ _ (by omega) (by omega)
  · simp only [Globals.account, sizeofBankAccount, offsetofBalance, sizeofDouble]
    rw [take_drop_of_take_append _ _ _ _ _ (by omega) (by omega)]

/-- C8 at a concrete store: one account "A1" of balance 1.0, saved and then loaded into the
globals of a fresh process. -/
theorem save_load_roundtrip_witness :
    (loadAccounts Globals.initial true (saveAccounts oneAccount true none)).accountCount = 1 ∧
    ((loadAccounts Globals.initial true (saveAccounts oneAccount true none)).account
        0).accountNumber = (oneAccount.account 0).accountNumber ∧
    ((loadAccounts Globals.initial true (saveAccounts oneAccount true none)).account 0).balance
      = (oneAccount.account 0).balance ∧
    (oneAccount.account 0).accountNumber = [65, 49] ++ List.replicate 18 0 ∧
    (oneAccount.account 0).balance = 4607182418800017408 :=
  have h := save_load_roundtrip oneAccount Globals.initial none
    (by simp only [oneAccount, List.length_append, List.length_replicate, List.length_cons,
          List.length_nil, MAX_ACCOUNTS, sizeofBankAccount])
    (by decide) (by decide)
  ⟨h.1, (h.2 0 (by decide)).1, (h.2 0 (by decide)).2, by decide, by decide⟩

end BankC
